/-
Verification of the script-execution service (api/validation.py, api/controller.py,
sandbox/harness.py, sandbox/runner.py) against its natural-language specification.

The Python source is shallowly embedded: pure functions become Lean functions,
Python strings are Lean `String`s manipulated through their character lists,
`ast` trees become a mutual inductive covering exactly the node shapes the
validator inspects, and the effectful backends (subprocess, HTTP) become
functions of an explicit outcome parameter describing what the external world
did, so that every exit path of the Python code is a branch of a Lean match.
json.dumps / json.loads are Python-stdlib externals; they appear as an
encoder/decoder parameter pair wherever the code calls them.
-/
import Mathlib

namespace StackSync

/-! ## Python string primitives

The Python code uses `str.startswith`, slicing `s[n:]`, `str.strip`,
`str.splitlines`, `"\n".join`, `len` and the `in` substring test.  Each is
modelled on the character list of the Lean string. -/

/-- Python `s.startswith(pre)`. -/
def pyStartswith (s pre : String) : Bool :=
  pre.toList.isPrefixOf s.toList

/-- Python `s[n:]` (drop the first `n` characters). -/
def pyDrop (s : String) (n : Nat) : String :=
  String.mk (s.toList.drop n)

/-- Python `len(s)` (number of characters). -/
def pyLen (s : String) : Nat := s.toList.length

/-- The whitespace characters stripped by Python `str.strip()` for ASCII text:
space, tab, newline, carriage return, vertical tab, form feed. -/
def pyIsSpace (c : Char) : Bool :=
  c = ' ' || c = '\t' || c = '\n' || c = '\r' || c = '\x0b' || c = '\x0c'

/-- Python `s.strip()`. -/
def pyStrip (s : String) : String :=
  String.mk ((((s.toList.dropWhile pyIsSpace).reverse).dropWhile pyIsSpace).reverse)

/-- Python `sub in hay` (substring containment), used to formalise a message
"listing" an issue. -/
def containsSub (hay sub : String) : Bool :=
  hay.toList.tails.any (fun t => sub.toList.isPrefixOf t)

/-- Split a character list at each newline.  Mirrors Python `str.splitlines`
on newline-delimited text: no empty trailing fragment is produced after a
final newline. -/
def splitLinesList : List Char → List (List Char)
  | [] => []
  | c :: cs =>
    if c = '\n' then [] :: splitLinesList cs
    else
      match splitLinesList cs with
      | [] => [[c]]
      | l :: ls => (c :: l) :: ls

/-- Python `s.splitlines()` (newline-delimited text). -/
def splitLines (s : String) : List String :=
  (splitLinesList s.toList).map String.mk

/-- The stdout text produced by printing each line in order:
every `print(x)` writes `x` followed by a newline. -/
def joinNl : List String → String
  | [] => ""
  | l :: ls => l ++ "\n" ++ joinNl ls

/-! ## Validator data (api/validation.py)

`DISALLOWED_GLOBAL_NAMES`, `DISALLOWED_ATTRS` and the limits, verbatim from
the source (sets become lists; only membership is ever used). -/

def MAX_SCRIPT_SIZE : Nat := 200 * 1024

def MAX_FUNCTION_DEFS : Nat := 100

def DISALLOWED_GLOBAL_NAMES : List String :=
  ["eval", "exec", "compile", "importlib", "ctypes", "ctypes.util",
   "subprocess", "socket", "multiprocessing", "threading", "os.system",
   "sys.modules", "__import__"]

def DISALLOWED_ATTRS : List (String × String) :=
  [("os", "system"), ("os", "popen"), ("os", "execv"), ("os", "execl"),
   ("sys", "exec_prefix")]

/-! ## Python AST embedding

A mutual inductive covering the node shapes `_find_disallowed_usage` inspects:
`ast.Name`, `ast.Attribute`, `ast.Call`, `ast.Constant` on the expression side
and `ast.FunctionDef`, `ast.Import`, `ast.ImportFrom`, expression statements on
the statement side; `Stmt.other` stands for any further leaf statement.  Lists
are represented by mutual list types so that all recursion stays structural. -/

mutual
inductive Expr : Type where
  | name (id : String)
  | constant
  | attrNode (value : Expr) (attr : String)
  | call (func : Expr) (args : ExprList)

inductive ExprList : Type where
  | nil
  | cons (head : Expr) (tail : ExprList)
end

mutual
inductive Stmt : Type where
  | functionDef (nm : String) (body : StmtList)
  | importStmt (names : List String)
  | importFrom (module : String)
  | exprStmt (e : Expr)
  | other

inductive StmtList : Type where
  | nil
  | cons (head : Stmt) (tail : StmtList)
end

/-- A node of the walked tree (`ast.walk` yields statements and expressions;
the `Module` root and `alias` leaves match none of the validator's
`isinstance` checks and are omitted from the queue). -/
inductive PyNode : Type where
  | stmt (s : Stmt)
  | expr (e : Expr)

def ExprList.toNodes : ExprList → List PyNode
  | .nil => []
  | .cons e es => .expr e :: ExprList.toNodes es

def StmtList.toNodes : StmtList → List PyNode
  | .nil => []
  | .cons s ss => .stmt s :: StmtList.toNodes ss

/-- Model of `ast.iter_child_nodes`, restricted to the embedded node shapes. -/
def PyNode.children : PyNode → List PyNode
  | .stmt (.functionDef _ body) => StmtList.toNodes body
  | .stmt (.importStmt _) => []
  | .stmt (.importFrom _) => []
  | .stmt (.exprStmt e) => [.expr e]
  | .stmt .other => []
  | .expr (.name _) => []
  | .expr .constant => []
  | .expr (.attrNode v _) => [.expr v]
  | .expr (.call f args) => .expr f :: ExprList.toNodes args

mutual
def Expr.weight : Expr → Nat
  | .name _ => 1
  | .constant => 1
  | .attrNode v _ => 1 + Expr.weight v
  | .call f args => 1 + Expr.weight f + ExprList.weight args

def ExprList.weight : ExprList → Nat
  | .nil => 0
  | .cons e es => Expr.weight e + ExprList.weight es
end

mutual
def Stmt.weight : Stmt → Nat
  | .functionDef _ body => 1 + StmtList.weight body
  | .importStmt _ => 1
  | .importFrom _ => 1
  | .exprStmt e => 1 + Expr.weight e
  | .other => 1

def StmtList.weight : StmtList → Nat
  | .nil => 0
  | .cons s ss => Stmt.weight s + StmtList.weight ss
end

def PyNode.weight : PyNode → Nat
  | .stmt s => Stmt.weight s
  | .expr e => Expr.weight e

def queueWeight (q : List PyNode) : Nat :=
  (q.map PyNode.weight).sum

/-- One step of `ast.walk`: pop the front of the deque, yield it, push its
children at the back (breadth-first).  The fuel argument is consumed once per
yielded node; `walk` below supplies exactly the total node count, so the
zero-fuel branch is never reached from `walk`. -/
def walkF : Nat → List PyNode → List PyNode
  | _, [] => []
  | 0, _ :: _ => []
  | fuel + 1, n :: rest => n :: walkF fuel (rest ++ n.children)

/-- Model of `ast.walk` over a queue of roots (breadth-first traversal of all nodes). -/
def walk (q : List PyNode) : List PyNode :=
  walkF (queueWeight q) q

/-! ## Issue messages (verbatim from api/validation.py; apostrophes written
as the escape \x27). -/

def syntaxInvalidMsg : String := "Script is syntactically invalid Python."

def tooManyDefsMsg (fnCount : Nat) : String :=
  "Too many function definitions (" ++ toString fnCount ++ " > " ++
    toString MAX_FUNCTION_DEFS ++ ")."

def callNameMsg (nm : String) : String :=
  "Use of \x27" ++ nm ++ "()\x27 is disallowed for security reasons."

def callAttrMsg (vid attr : String) : String :=
  "Use of \x27" ++ vid ++ "." ++ attr ++ "()\x27 is disallowed for security reasons."

def importMsg (nm : String) : String :=
  "Import of \x27" ++ nm ++ "\x27 is disallowed or flagged as suspicious."

def importFromMsg (module : String) : String :=
  "Import-from \x27" ++ module ++ "\x27 is disallowed or flagged as suspicious."

def refMsg (id : String) : String :=
  "Reference to \x27" ++ id ++ "\x27 is disallowed."

def attrRefMsg (vid attr : String) : String :=
  "Use of attribute \x27" ++ vid ++ "." ++ attr ++ "\x27 is disallowed."

def missingMainMsg : String :=
  "Script must define a top-level function named \x27main()\x27."

def emptyScriptMsg : String := "\x27script\x27 must be a non-empty string."

def tooLargeMsg : String :=
  "Script too large (>" ++ toString MAX_SCRIPT_SIZE ++ " bytes)."

def constructsMsgPre : String :=
  "Script contains disallowed or suspicious constructs: "

/-- The test `name == d or name.startswith(d + ".")` applied against every entry of
`DISALLOWED_GLOBAL_NAMES` (the import checks). -/
def matchesDenylistModule (nm : String) : Bool :=
  DISALLOWED_GLOBAL_NAMES.any (fun d => nm = d || pyStartswith nm (d ++ "."))

/-- The issues appended by the body of the `for node in ast.walk(tree)` loop
for a single node, in the order the source appends them.  The four
`isinstance` branches are mutually exclusive because a node has exactly one
AST class. -/
def nodeIssues : PyNode → List String
  | .stmt (.importStmt names) =>
      (names.filter matchesDenylistModule).map importMsg
  | .stmt (.importFrom module) =>
      if matchesDenylistModule module then [importFromMsg module] else []
  | .stmt _ => []
  | .expr (.call (.name nm) _) =>
      if nm ∈ DISALLOWED_GLOBAL_NAMES then [callNameMsg nm] else []
  | .expr (.call (.attrNode (.name vid) attr) _) =>
      if (vid, attr) ∈ DISALLOWED_ATTRS then [callAttrMsg vid attr] else []
  | .expr (.call _ _) => []
  | .expr (.name id) =>
      if id ∈ (["eval", "exec", "__import__"] : List String) then [refMsg id] else []
  | .expr (.attrNode (.name vid) attr) =>
      if (vid, attr) ∈ DISALLOWED_ATTRS then [attrRefMsg vid attr] else []
  | .expr _ => []

def isFunctionDefNode : PyNode → Bool
  | .stmt (.functionDef _ _) => true
  | _ => false

/-- The deduplication loop at the end of `_find_disallowed_usage`:
`uniq = []; for i in issues: if i not in uniq: uniq.append(i)`.
`seen` is the `uniq` accumulated so far (kept in insertion order). -/
def dedupAux (seen : List String) : List String → List String
  | [] => []
  | x :: xs =>
      if x ∈ seen then dedupAux seen xs
      else x :: dedupAux (seen ++ [x]) xs

/-- Model of `_find_disallowed_usage(script)`.  The argument is the outcome of
`_parse_ast` (`none` models a `SyntaxError`); the walk, the function-count
bound and the per-node checks follow the source line by line. -/
def findDisallowedUsage (tree? : Option StmtList) : List String :=
  match tree? with
  | none => [syntaxInvalidMsg]
  | some body =>
      let nodes := walk (StmtList.toNodes body)
      let fnCount := nodes.countP (fun n => isFunctionDefNode n)
      let countIssues :=
        if fnCount > MAX_FUNCTION_DEFS then [tooManyDefsMsg fnCount] else []
      dedupAux [] (countIssues ++ nodes.flatMap nodeIssues)

/-- A submitted script: its raw text together with the outcome of
`ast.parse(text)` (`none` when parsing raises).  The two fields are coupled in
Python by the parser; concrete instances used below pair a text with the tree
the real parser yields for it. -/
structure Script : Type where
  text : String
  tree? : Option StmtList

/-- Top-level scan of `tree.body` for a `FunctionDef` named `main`. -/
def hasMainTop : StmtList → Bool
  | .nil => false
  | .cons (.functionDef nm _) rest => nm = "main" || hasMainTop rest
  | .cons _ rest => hasMainTop rest

/-- Model of `has_main_function(script)`: false when the script does not parse. -/
def hasMainFunction (s : Script) : Bool :=
  match s.tree? with
  | none => false
  | some body => hasMainTop body

/-- Model of `validate_script(script)` for a string argument (the `None` /
non-string guards concern other request types and are outside the model).
Returns `(ok, error-message?)` exactly as the source does. -/
def validateScript (s : Script) : Bool × Option String :=
  if pyLen (pyStrip s.text) = 0 then (false, some emptyScriptMsg)
  else if pyLen s.text > MAX_SCRIPT_SIZE then (false, some tooLargeMsg)
  else if !hasMainFunction s then (false, some missingMainMsg)
  else
    match findDisallowedUsage s.tree? with
    | [] => (true, none)
    | issues =>
        (false, some (constructsMsgPre ++ String.intercalate "; " (issues.take 5)))

/-! ## Controller embedding (api/controller.py, sandbox/runner.py,
sandbox/harness.py)

The value space of JSON payloads.  Python floats are outside the model; no
claim depends on them.  `PyJson.null` is Python `None`. -/

inductive PyJson : Type where
  | null
  | bool (b : Bool)
  | int (n : Int)
  | str (s : String)
  | arr (items : List PyJson)
  | obj (entries : List (String × PyJson))

/-- The constant `_RESULT_MARKER` from api/controller.py (identical in sandbox/harness.py). -/
def RESULT_MARKER : String := "<<<__PY_RESULT__>>>"

/-- The marker-extraction loop shared by `_local_runner` and `_remote_runner`:
`result_json_text = None; for line in stdout.splitlines(): if
line.startswith(_RESULT_MARKER): result_json_text = line[len(_RESULT_MARKER):]`.
Each matching line overwrites the previous candidate, so the last one wins. -/
def extractPayload (lines : List String) : Option String :=
  lines.foldl
    (fun acc line =>
      if pyStartswith line RESULT_MARKER then some (pyDrop line (pyLen RESULT_MARKER))
      else acc)
    none

/-- The stdout-collection loop of `execute_script`: append every line that
does not start with the marker. -/
def collectPrinted (lines : List String) : List String :=
  lines.foldl
    (fun acc line => if !pyStartswith line RESULT_MARKER then acc ++ [line] else acc)
    []

/-- Python `int(x)` on a string: strip whitespace, optional sign, digits.
(The underscore-separator form accepted by CPython is outside the model.) -/
def pyParseInt (s : String) : Option Int :=
  let cs := (((s.toList.dropWhile pyIsSpace).reverse).dropWhile pyIsSpace).reverse
  let digitsVal : List Char → Int :=
    fun ds => ds.foldl (fun a c => 10 * a + (Int.ofNat (c.toNat - 48))) 0
  match cs with
  | [] => none
  | '+' :: ds => if ds ≠ [] ∧ ds.all Char.isDigit then some (digitsVal ds) else none
  | '-' :: ds => if ds ≠ [] ∧ ds.all Char.isDigit then some (-(digitsVal ds)) else none
  | ds => if ds.all Char.isDigit then some (digitsVal ds) else none

/-- Python `int(x)` on a JSON value: ints pass through, bools coerce,
numeric strings parse; `None`, lists and dicts raise `TypeError` (`none`). -/
def pyToInt : PyJson → Option Int
  | .int n => some n
  | .bool b => some (if b then 1 else 0)
  | .str s => pyParseInt s
  | _ => none

/-- A remote-runner HTTP response as `_remote_runner` observes it:
whether `raise_for_status()` passes, and the decoded JSON body
(`none` when `resp.json()` raises). -/
structure RemoteResp : Type where
  statusOk : Bool
  body? : Option PyJson

/-- Model of `_remote_runner`, given the response the transport delivered.  `none`
models an exception escaping the function (which `execute_script` catches as
"backend unavailable"); `some` is the returned 4-tuple
`(result_json_text, stdout, stderr, return_code)`.  `stderr` is returned
exactly as found in the body, whatever its type, so that slot stays `PyJson`.
The source evaluates `int(body.get("return_code", 1))` before iterating
`stdout.splitlines()`; both failure modes raise, so the branch order below
does not change the outcome. -/
def remoteRunnerM (r : RemoteResp) :
    Option (Option String × String × PyJson × Int) :=
  if !r.statusOk then none
  else
    match r.body? with
    | some (.obj es) =>
        let stdoutV := (es.lookup "stdout").getD (.str "")
        let stderrV := (es.lookup "stderr").getD (.str "")
        match pyToInt ((es.lookup "return_code").getD (.int 1)) with
        | none => none
        | some rc =>
            match stdoutV with
            | .str s => some (extractPayload (splitLines s), s, stderrV, rc)
            | _ => none
    | _ => none

/-- What the spawned child process did: ran to completion with captured
streams and exit code, exceeded the timeout (`subprocess.TimeoutExpired`),
or made `subprocess.run` raise some other exception. -/
inductive LocalSpawn : Type where
  | completed (stdout stderr : String) (code : Int)
  | timedOut
  | failed (detail : String)

/-- The stderr text both runners produce on `TimeoutExpired` (no final
period). -/
def timeoutStderrMsg (t : Nat) : String :=
  "Execution timed out after " ++ toString t ++ " seconds"

/-- Result of `_local_runner` plus whether its `os.unlink(tmp_path)` ran.
`ret = none` models an exception propagating out of the function. -/
structure LocalRunOut : Type where
  ret : Option (Option String × String × String × Int)
  tmpDeleted : Bool

/-- Model of `_local_runner(harness_source, timeout)`.  The `except
subprocess.TimeoutExpired` arm unlinks and returns the timeout tuple; the
success path unlinks after reading the streams; any other exception from
`subprocess.run` is not caught, so control leaves the function with the
temporary file still on disk. -/
def localRunner (t : Nat) : LocalSpawn → LocalRunOut
  | .completed o e c => ⟨some (extractPayload (splitLines o), o, e, c), true⟩
  | .timedOut => ⟨some (none, "", timeoutStderrMsg t, -1), true⟩
  | .failed _ => ⟨none, false⟩

/-- Result of the `/run` handler body in sandbox/runner.py (after its request
checks), plus whether its `finally: os.unlink(tmp_path)` ran. -/
structure ServiceOut : Type where
  stdout : String
  stderr : String
  returnCode : Int
  tmpDeleted : Bool

/-- sandbox/runner.py `run_harness`: `try`/`except TimeoutExpired`/`except
Exception`/`finally os.unlink`.  The catch-all arm embeds a literal
backslash-n because the source writes `\\n` inside an f-string. -/
def runnerService (t : Nat) : LocalSpawn → ServiceOut
  | .completed o e c => ⟨o, e, c, true⟩
  | .timedOut => ⟨"", timeoutStderrMsg t, -1, true⟩
  | .failed tb => ⟨"", "Runner internal error:\\n" ++ tb, -2, true⟩

/-- The remote attempt as `execute_script` sees it: either `_remote_runner`
returned a well-typed 4-tuple (computed from the body's stdout text), or it
raised — transport failure, bad status, undecodable body, wrong-typed field —
with `str(e)` as the message. -/
inductive RemoteOutcome : Type where
  | raises (msg : String)
  | returns (stdout stderr : String) (code : Int)

/-- The `try`/`except` block of `execute_script` that produces
`(result_json_text, full_stdout, full_stderr, return_code)`, plus the number
of remote and local attempts made.  On fallback the note
`[runner-unavailable] <reason>` is prepended to the local stderr (becoming
all of it when the local stderr is empty); an exception from `_local_runner`
propagates (first component `none`). -/
def gatherRaw (t : Nat) (remote : RemoteOutcome) (spawn : LocalSpawn) :
    Option (Option String × String × String × Int) × Nat × Nat :=
  match remote with
  | .returns o e c => (some (extractPayload (splitLines o), o, e, c), 1, 0)
  | .raises m =>
      match (localRunner t spawn).ret with
      | none => (none, 1, 1)
      | some (p, o, e, c) =>
          let note := "[runner-unavailable] " ++ m
          (some (p, o, if e = "" then note else note ++ "\n" ++ e, c), 1, 1)

/-- The caller-facing `{"result": ..., "stdout": ..., "error": ...}` dict.
`result = PyJson.null` and `error = none` both model Python `None`. -/
structure Response : Type where
  result : PyJson
  stdout : String
  error : Option String

def timeoutErrorMsg (t : Nat) : String :=
  "Execution timed out after " ++ toString t ++ " seconds."

def noResultMsg (c : Int) : String :=
  "Script did not produce a JSON result (return code " ++ toString c ++ ")."

def badJsonMsg (e : String) : String :=
  "Returned value is not valid JSON: " ++ e

/-- The tail of `execute_script`: collect printed stdout, then branch on the
presence of a marker payload; `dec` stands for `json.loads`, returning the
decoded value or the exception text. -/
def finishRun (dec : String → Except String PyJson) (t : Nat)
    (p? : Option String) (stdout stderr : String) (code : Int) : Response :=
  let printed := String.intercalate "\n" (collectPrinted (splitLines stdout))
  match p? with
  | none =>
      if stderr ≠ "" ∧ pyStrip stderr ≠ "" then ⟨.null, printed, some (pyStrip stderr)⟩
      else if code = -1 then ⟨.null, printed, some (timeoutErrorMsg t)⟩
      else ⟨.null, printed, some (noResultMsg code)⟩
  | some p =>
      match dec p with
      | .error e => ⟨.null, printed, some (badJsonMsg e)⟩
      | .ok v => ⟨v, printed, none⟩

/-- Model of `execute_script` end to end, plus the attempt counters.  `resp = none`
models an exception propagating out of the function (only possible when the
local fallback itself raises). -/
structure ExecOut : Type where
  resp : Option Response
  remoteAttempts : Nat
  localAttempts : Nat

def executeScript (dec : String → Except String PyJson) (t : Nat) (s : Script)
    (remote : RemoteOutcome) (spawn : LocalSpawn) : ExecOut :=
  match validateScript s with
  | (false, err) => ⟨some ⟨.null, "", err⟩, 0, 0⟩
  | (true, _) =>
      match gatherRaw t remote spawn with
      | (none, r, l) => ⟨none, r, l⟩
      | (some (p, o, e, c), r, l) => ⟨some (finishRun dec t p o e c), r, l⟩

/-! ## Harness semantics (the generated source of `_build_harness` /
`build_harness`)

The generated program runs the user `main()` and then the `__run_and_emit_result`
routine.  Its three exits, read off the harness text: `main` raises → traceback
on stderr, exit 1; `json.dumps(result)` raises `TypeError`/`ValueError` → one
marker line carrying `{"__error__": str(e)}`, exit 2; otherwise → one marker
line carrying the payload, exit 0.  User prints reach stdout as they happen,
one line per print; `enc` stands for `json.dumps`. -/

inductive MainOutcome : Type where
  | returns (prints : List String) (v : PyJson)
  | unserializable (prints : List String) (detail : String)
  | raises (prints : List String) (tb : String)

def harnessRun (enc : PyJson → String) : MainOutcome → String × String × Int
  | .returns ps v => (joinNl (ps ++ [RESULT_MARKER ++ enc v]), "", 0)
  | .unserializable ps d =>
      (joinNl (ps ++ [RESULT_MARKER ++ enc (.obj [("__error__", .str d)])]), "", 2)
  | .raises ps tb => (joinNl ps, tb, 1)

/-- The full pipeline on a script whose `main` behaves as `mo`: the backend
(here the remote path; the spawn argument is unused on that path) runs the
harness and `execute_script` normalises the raw streams. -/
def runPipeline (enc : PyJson → String) (dec : String → Except String PyJson)
    (t : Nat) (s : Script) (mo : MainOutcome) : ExecOut :=
  match harnessRun enc mo with
  | (o, e, c) => executeScript dec t s (.returns o e c) (.failed "")

/-- A small concrete encoder standing in for `json.dumps` when a theorem
with encoder hypotheses is instantiated. -/
def encSimple : PyJson → String
  | .null => "null"
  | .int n => toString n
  | _ => "0"

/-- A small concrete decoder standing in for `json.loads` on the payloads the
witnesses use. -/
def decSimple (s : String) : Except String PyJson :=
  if s = "null" then .ok .null
  else if s = "5" then .ok (.int 5)
  else if s = "42" then .ok (.int 42)
  else .error "Expecting value: line 1 column 1 (char 0)"

/-- The predicate under which `_remote_runner` does not raise: it raises on any response outside the documented shape
exactly when this predicate is false: success status and a JSON-object body
whose `stdout` and `stderr` fields are strings and whose `return_code` field
is an integer. -/
def wellShapedRemote (r : RemoteResp) : Bool :=
  r.statusOk &&
    match r.body? with
    | some (.obj es) =>
        (match es.lookup "stdout" with | some (.str _) => true | _ => false) &&
        (match es.lookup "stderr" with | some (.str _) => true | _ => false) &&
        (match es.lookup "return_code" with | some (.int _) => true | _ => false)
    | _ => false

/-! ## Concrete scripts used by witnesses and counterexamples

Each pairs a Python text with the tree `ast.parse` yields for it. -/

/-- The script `import subprocess` — parses, has no `main`, and contains a denylisted
import. -/
def scriptImportOnly : Script :=
  ⟨"import subprocess", some (.cons (.importStmt ["subprocess"]) .nil)⟩

/-- The script `def main(:` — a syntax error, so the tree is `none`. -/
def scriptBroken : Script := ⟨"def main(:", none⟩

/-- The script `def main():\n    return 42` — a minimal accepted script; the `return`
statement is a leaf the validator never inspects. -/
def scriptMain : Script :=
  ⟨"def main():\n    return 42",
   some (.cons (.functionDef "main" (.cons .other .nil)) .nil)⟩

/-- The script `def main():\n    os.system("x")` — accepted entry point, one denylisted
attribute call. -/
def scriptOsSystem : Script :=
  ⟨"def main():\n    os.system(\x22x\x22)",
   some (.cons
          (.functionDef "main"
            (.cons (.exprStmt (.call (.attrNode (.name "os") "system") .nil)) .nil))
          .nil)⟩

/-- The tree of a `main` whose body is a single `print(...)` call followed by
one further leaf statement (a `return` or `raise`); shared by the accepted
printing scripts below.  `print` is not denylisted. -/
def printThenLeafTree : Option StmtList :=
  some (.cons
         (.functionDef "main"
           (.cons (.exprStmt (.call (.name "print") (.cons .constant .nil)))
             (.cons .other .nil)))
         .nil)

/-- The script `def main():\n    print("<<<__PY_RESULT__>>>zzz")\n    return 5` — prints
a line that begins with the marker, then returns a value. -/
def scriptPrintsMarker : Script :=
  ⟨"def main():\n    print(\x22<<<__PY_RESULT__>>>zzz\x22)\n    return 5",
   printThenLeafTree⟩

/-- The script `def main():\n    print("hello <<<__PY_RESULT__>>>")\n    return 5` —
prints a line containing the marker in its interior, then returns a value. -/
def scriptPrintsHello : Script :=
  ⟨"def main():\n    print(\x22hello <<<__PY_RESULT__>>>\x22)\n    return 5",
   printThenLeafTree⟩

/-- The script `def main():\n    print("<<<__PY_RESULT__>>>null")\n    raise Exception()`
written with the raise as the trailing leaf — prints a forged marker line
carrying `null`, then raises. -/
def scriptForgedNull : Script :=
  ⟨"def main():\n    print(\x22<<<__PY_RESULT__>>>null\x22)\n    raise Exception",
   printThenLeafTree⟩

/-- The script `def main():\n    print("hi")\n    return None` — prints an ordinary line
and legitimately returns a JSON null. -/
def scriptPrintsHiNull : Script :=
  ⟨"def main():\n    print(\x22hi\x22)\n    return None",
   printThenLeafTree⟩

/-! ## Supporting lemmas -/

theorem toList_append (s t : String) : (s ++ t).toList = s.toList ++ t.toList := rfl

theorem mk_toList (s : String) : String.mk s.toList = s := rfl

theorem isPrefixOf_append_self (a b : List Char) : a.isPrefixOf (a ++ b) = true := by
  rw [List.isPrefixOf_iff_prefix]
  exact List.prefix_append a b

theorem pyStartswith_append_self (a b : String) : pyStartswith (a ++ b) a = true := by
  simp [pyStartswith, toList_append, isPrefixOf_append_self]

theorem pyDrop_append_self (a b : String) : pyDrop (a ++ b) (pyLen a) = b := by
  simp [pyDrop, pyLen, toList_append, List.drop_left, mk_toList]

theorem weight_pos (n : PyNode) : 1 ≤ n.weight := by
  cases n with
  | stmt s => cases s <;> simp [PyNode.weight, Stmt.weight] <;> omega
  | expr e => cases e <;> simp [PyNode.weight, Expr.weight] <;> omega

theorem queueWeight_nil : queueWeight [] = 0 := rfl

theorem queueWeight_cons (n : PyNode) (q : List PyNode) :
    queueWeight (n :: q) = n.weight + queueWeight q := by
  simp [queueWeight]

theorem queueWeight_append (a b : List PyNode) :
    queueWeight (a ++ b) = queueWeight a + queueWeight b := by
  simp [queueWeight]

theorem queueWeight_toNodes_expr : (es : ExprList) →
    queueWeight es.toNodes = ExprList.weight es
  | .nil => rfl
  | .cons e es => by
      have ih := queueWeight_toNodes_expr es
      rw [ExprList.toNodes, ExprList.weight, queueWeight_cons, ih]
      rfl

theorem queueWeight_toNodes_stmt : (ss : StmtList) →
    queueWeight ss.toNodes = StmtList.weight ss
  | .nil => rfl
  | .cons s ss => by
      have ih := queueWeight_toNodes_stmt ss
      rw [StmtList.toNodes, StmtList.weight, queueWeight_cons, ih]
      rfl

theorem weight_eq_children (n : PyNode) :
    n.weight = 1 + queueWeight n.children := by
  cases n with
  | stmt s =>
      cases s <;>
        simp [PyNode.weight, PyNode.children, Stmt.weight, queueWeight_nil,
          queueWeight_cons, queueWeight_toNodes_stmt] <;> omega
  | expr e =>
      cases e <;>
        simp [PyNode.weight, PyNode.children, Expr.weight, queueWeight_nil,
          queueWeight_cons, queueWeight_toNodes_expr] <;> omega

theorem mem_walkF_of_mem (fuel : Nat) :
    ∀ q : List PyNode, queueWeight q ≤ fuel → ∀ x ∈ q, x ∈ walkF fuel q := by
  induction fuel with
  | zero =>
      intro q hq x hx
      cases q with
      | nil => cases hx
      | cons n rest =>
          exfalso
          have h1 := weight_pos n
          simp [queueWeight] at hq
          omega
  | succ fuel ih =>
      intro q hq x hx
      cases q with
      | nil => cases hx
      | cons n rest =>
          cases hx with
          | head => exact List.mem_cons_self _ _
          | tail _ hx =>
              have hw : queueWeight (rest ++ n.children) ≤ fuel := by
                have h1 := weight_eq_children n
                have h2 : queueWeight (n :: rest) = n.weight + queueWeight rest := by
                  simp [queueWeight]
                rw [queueWeight_append]
                omega
              exact List.mem_cons_of_mem n
                (ih (rest ++ n.children) hw x (List.mem_append_left _ hx))

theorem children_mem_walkF (fuel : Nat) :
    ∀ q : List PyNode, queueWeight q ≤ fuel → ∀ n ∈ walkF fuel q,
      ∀ c ∈ n.children, c ∈ walkF fuel q := by
  induction fuel with
  | zero =>
      intro q hq n hn c _
      cases q with
      | nil => cases hn
      | cons m rest =>
          exfalso
          have h1 := weight_pos m
          simp [queueWeight] at hq
          omega
  | succ fuel ih =>
      intro q hq n hn c hc
      cases q with
      | nil => cases hn
      | cons m rest =>
          have hw : queueWeight (rest ++ m.children) ≤ fuel := by
            have h1 := weight_eq_children m
            have h2 : queueWeight (m :: rest) = m.weight + queueWeight rest := by
              simp [queueWeight]
            rw [queueWeight_append]
            omega
          have hn2 : n ∈ m :: walkF fuel (rest ++ m.children) := hn
          show c ∈ m :: walkF fuel (rest ++ m.children)
          cases hn2 with
          | head =>
              exact List.mem_cons_of_mem _
                (mem_walkF_of_mem fuel _ hw c (List.mem_append_right _ hc))
          | tail _ hn3 =>
              exact List.mem_cons_of_mem _ (ih _ hw n hn3 c hc)

theorem children_mem_walk (q : List PyNode) (n : PyNode) (hn : n ∈ walk q) :
    ∀ c ∈ n.children, c ∈ walk q :=
  children_mem_walkF (queueWeight q) q le_rfl n hn

theorem mem_dedupAux (a : String) :
    ∀ (l seen : List String), a ∈ dedupAux seen l ↔ a ∈ l ∧ a ∉ seen := by
  intro l
  induction l with
  | nil => intro seen; simp [dedupAux]
  | cons x xs ih =>
      intro seen
      by_cases hx : x ∈ seen
      · rw [dedupAux, if_pos hx, ih]
        constructor
        · rintro ⟨h1, h2⟩
          exact ⟨List.mem_cons_of_mem x h1, h2⟩
        · rintro ⟨h1, h2⟩
          rcases List.mem_cons.mp h1 with rfl | h1
          · exact absurd hx h2
          · exact ⟨h1, h2⟩
      · rw [dedupAux, if_neg hx]
        constructor
        · intro h
          rcases List.mem_cons.mp h with rfl | h
          · exact ⟨List.mem_cons_self _ _, hx⟩
          · have := (ih (seen ++ [x])).mp h
            refine ⟨List.mem_cons_of_mem x this.1, fun hs => this.2 ?_⟩
            exact List.mem_append_left _ hs
        · rintro ⟨h1, h2⟩
          rcases List.mem_cons.mp h1 with rfl | h1
          · exact List.mem_cons_self _ _
          · by_cases hax : a = x
            · subst hax; exact List.mem_cons_self _ _
            · refine List.mem_cons_of_mem x ((ih (seen ++ [x])).mpr ⟨h1, ?_⟩)
              intro hs
              rcases List.mem_append.mp hs with hs | hs
              · exact h2 hs
              · simp at hs; exact hax hs

theorem extractPayload_eq_getLast (lines : List String) :
    extractPayload lines =
      ((lines.filter (fun l => pyStartswith l RESULT_MARKER)).getLast?).map
        (fun l => pyDrop l (pyLen RESULT_MARKER)) := by
  induction lines using List.reverseRecOn with
  | nil => rfl
  | append_singleton xs x ih =>
      rw [extractPayload] at *
      rw [List.foldl_append, List.filter_append]
      simp only [List.foldl]
      by_cases hx : pyStartswith x RESULT_MARKER
      · rw [if_pos hx]
        simp [hx, List.getLast?_concat]
      · rw [if_neg hx]
        simp only [hx, Bool.false_eq_true, not_false_eq_true, List.filter_cons_of_neg,
          List.filter_nil, List.append_nil]
        exact ih

theorem collectPrinted_eq_filter (lines : List String) :
    collectPrinted lines = lines.filter (fun l => !pyStartswith l RESULT_MARKER) := by
  have gen : ∀ (l : List String) (acc : List String),
      l.foldl
        (fun acc line =>
          if !pyStartswith line RESULT_MARKER then acc ++ [line] else acc) acc
        = acc ++ l.filter (fun l => !pyStartswith l RESULT_MARKER) := by
    intro l
    induction l with
    | nil => intro acc; simp
    | cons x xs ih =>
        intro acc
        rw [List.foldl_cons]
        by_cases hx : pyStartswith x RESULT_MARKER
        · rw [if_neg (by simp [hx]), List.filter_cons_of_neg (by simp [hx]), ih]
        · rw [if_pos (by simp [hx]), List.filter_cons_of_pos (by simp [hx]),
            ih (acc ++ [x])]
          simp
  exact gen lines []

theorem extractPayload_concat_marker (ls : List String) (x : String)
    (hx : pyStartswith x RESULT_MARKER = true) :
    extractPayload (ls ++ [x]) = some (pyDrop x (pyLen RESULT_MARKER)) := by
  rw [extractPayload, List.foldl_append]
  simp [hx]

theorem splitLinesList_append (l rest : List Char) (h : '\n' ∉ l) :
    splitLinesList (l ++ '\n' :: rest) = l :: splitLinesList rest := by
  induction l with
  | nil => simp [splitLinesList]
  | cons c cs ih =>
      have hc : ¬ (c = '\n') := fun hch => h (hch ▸ List.mem_cons_self c cs)
      have hcs : '\n' ∉ cs := fun hm => h (List.mem_cons_of_mem c hm)
      rw [List.cons_append, splitLinesList, if_neg hc, ih hcs]

theorem splitLines_joinNl (lines : List String)
    (h : ∀ l ∈ lines, '\n' ∉ l.toList) : splitLines (joinNl lines) = lines := by
  induction lines with
  | nil => rfl
  | cons l ls ih =>
      have h1 : '\n' ∉ l.toList := h l (List.mem_cons_self _ _)
      have h2 : ∀ x ∈ ls, '\n' ∉ x.toList := fun x hx => h x (List.mem_cons_of_mem l hx)
      have e1 : (joinNl (l :: ls)).toList = l.toList ++ '\n' :: (joinNl ls).toList := by
        show ((l ++ "\n") ++ joinNl ls).toList = _
        rw [toList_append, toList_append, List.append_assoc]
        rfl
      have ih2 := ih h2
      rw [splitLines] at ih2 ⊢
      rw [e1, splitLinesList_append _ _ h1, List.map_cons, mk_toList, ih2]

theorem take_append_of_le (n : Nat) (a b : List Char) (h : n ≤ a.length) :
    (a ++ b).take n = a.take n :=
  List.take_append_of_le_length h

theorem callAttrMsg_ne_attrRefMsg (o a : String) : callAttrMsg o a ≠ attrRefMsg o a := by
  intro h
  have h2 := congrArg (fun s : String => s.toList.take 8) h
  simp only [callAttrMsg, attrRefMsg, toList_append, List.append_assoc] at h2
  rw [List.take_append_of_le_length
        (show 8 ≤ ("Use of \x27" : String).toList.length by decide),
      List.take_append_of_le_length
        (show 8 ≤ ("Use of attribute \x27" : String).toList.length by decide)] at h2
  exact absurd h2 (by decide)

theorem hasMainFunction_eq_false_of_no_main (s : Script) (b : StmtList)
    (htree : s.tree? = some b) (hmain : hasMainTop b = false) :
    hasMainFunction s = false := by
  simp only [hasMainFunction]
  rw [htree]
  exact hmain

theorem executeScript_accepted (dec : String → Except String PyJson) (t : Nat)
    (s : Script) (remote : RemoteOutcome) (spawn : LocalSpawn)
    (hv : validateScript s = (true, none)) :
    executeScript dec t s remote spawn =
      match gatherRaw t remote spawn with
      | (none, r, l) => ⟨none, r, l⟩
      | (some (p, o, e, c), r, l) => ⟨some (finishRun dec t p o e c), r, l⟩ := by
  simp only [executeScript]
  rw [hv]

theorem finishRun_result_null_of_error (dec : String → Except String PyJson)
    (t : Nat) (p? : Option String) (o e : String) (c : Int) :
    (finishRun dec t p? o e c).error ≠ none →
      (finishRun dec t p? o e c).result = PyJson.null := by
  cases p? with
  | none =>
      intro _
      simp only [finishRun]
      split_ifs <;> rfl
  | some p =>
      intro h
      simp only [finishRun] at h ⊢
      cases hd : dec p with
      | error e2 => simp [hd]
      | ok v => rw [hd] at h; exact absurd rfl h


theorem newline_not_mem_marker_append (x : String) (hx : '\n' ∉ x.toList) :
    '\n' ∉ (RESULT_MARKER ++ x).toList := by
  rw [toList_append]
  intro hmem
  rcases List.mem_append.mp hmem with h | h
  · exact absurd h (by decide)
  · exact hx h

theorem extractPayload_marker_last (ls : List String) (x : String) :
    extractPayload (ls ++ [RESULT_MARKER ++ x]) = some x := by
  rw [extractPayload_concat_marker ls _ (pyStartswith_append_self _ _),
    pyDrop_append_self]

theorem collectPrinted_concat_marker (ls : List String) (x : String) :
    collectPrinted (ls ++ [RESULT_MARKER ++ x]) =
      ls.filter (fun l => !pyStartswith l RESULT_MARKER) := by
  rw [collectPrinted_eq_filter, List.filter_append]
  have h1 : pyStartswith (RESULT_MARKER ++ x) RESULT_MARKER = true :=
    pyStartswith_append_self _ _
  simp [h1]

/-- The normalised response of the full pipeline on an accepted script whose
`main` prints `prints` and returns a serialisable `v`: the result is `v`, the
error is absent, and the stdout field is the non-marker printed lines joined
by newlines. -/
theorem runPipeline_returns (enc : PyJson → String)
    (dec : String → Except String PyJson) (t : Nat) (s : Script)
    (prints : List String) (v : PyJson)
    (hv : validateScript s = (true, none))
    (hdec : dec (enc v) = .ok v)
    (hp : ∀ p ∈ prints, '\n' ∉ p.toList)
    (henc : '\n' ∉ (enc v).toList) :
    (runPipeline enc dec t s (.returns prints v)).resp =
      some ⟨v,
        String.intercalate "\n"
          (prints.filter (fun l => !pyStartswith l RESULT_MARKER)),
        none⟩ := by
  have hsplit : splitLines (joinNl (prints ++ [RESULT_MARKER ++ enc v]))
      = prints ++ [RESULT_MARKER ++ enc v] := by
    apply splitLines_joinNl
    intro x hx
    rcases List.mem_append.mp hx with h | h
    · exact hp x h
    · rw [List.mem_singleton] at h
      subst h
      exact newline_not_mem_marker_append _ henc
  show (executeScript dec t s
    (.returns (joinNl (prints ++ [RESULT_MARKER ++ enc v])) "" 0)
    (.failed "")).resp = _
  rw [executeScript_accepted _ _ _ _ _ hv]
  simp only [gatherRaw, finishRun]
  rw [hsplit, extractPayload_marker_last, collectPrinted_concat_marker]
  simp only [hdec]

/-! ## Claims -/

/-- Claim C1 counterexample.  The script `import subprocess` parses and lacks
a top-level `main`; `validate_script` rejects it, but its message is only the
missing-entry-point text and does not list the denylisted-import issue the
scanner would find in the same script — `validate_script` returns before
`_find_disallowed_usage` ever runs, refuting "scanning of the tree continues
so that the rejection also lists every other issue". -/
theorem c1_counterexample :
    validateScript scriptImportOnly = (false, some missingMainMsg) ∧
    findDisallowedUsage scriptImportOnly.tree? = [importMsg "subprocess"] ∧
    containsSub missingMainMsg (importMsg "subprocess") = false :=
  ⟨rfl, rfl, by decide⟩

/-- Claim C1 (amended): for every script that parses, is non-empty and within
the size bound, and lacks a top-level function named `main`, validation
rejects with exactly the missing-entry-point message; scanning does not
continue, so no other issue is listed. -/
theorem c1_missing_main_short_circuits (s : Script) (b : StmtList)
    (htree : s.tree? = some b) (hmain : hasMainTop b = false)
    (hne : pyLen (pyStrip s.text) ≠ 0) (hsz : pyLen s.text ≤ MAX_SCRIPT_SIZE) :
    validateScript s = (false, some missingMainMsg) := by
  have hm := hasMainFunction_eq_false_of_no_main s b htree hmain
  simp only [validateScript]
  rw [if_neg hne, if_neg (by omega), hm]
  rfl

/-- Claim C1 witness: the amended theorem applied to `import subprocess`. -/
theorem c1_witness : validateScript scriptImportOnly = (false, some missingMainMsg) :=
  c1_missing_main_short_circuits scriptImportOnly
    (.cons (.importStmt ["subprocess"]) .nil) rfl rfl (by decide) (by decide)

/-- Claim C3 counterexample.  When `subprocess.run` raises an exception other
than `TimeoutExpired` (modelled by `LocalSpawn.failed`), `_local_runner`
propagates it without reaching any `os.unlink` call: the temporary harness
file is not removed on that exit path, refuting "removed on every exit path
... including unexpected error raised during the spawn or wait". -/
theorem c3_counterexample :
    (localRunner 5 (.failed "boom")).tmpDeleted = false ∧
    (localRunner 5 (.failed "boom")).ret = none :=
  ⟨rfl, rfl⟩

/-- Claim C3 (amended): `_local_runner` removes the ephemeral file on the
success path and on the timeout path, but not when the spawn raises
unexpectedly; the remote runner service's handler (sandbox/runner.py), by
contrast, removes its file on every path via `finally`. -/
theorem c3_cleanup_amended :
    (∀ (t : Nat) (o e : String) (c : Int),
      (localRunner t (.completed o e c)).tmpDeleted = true) ∧
    (∀ t : Nat, (localRunner t .timedOut).tmpDeleted = true) ∧
    (∀ (t : Nat) (sp : LocalSpawn), (runnerService t sp).tmpDeleted = true) := by
  refine ⟨fun t o e c => rfl, fun t => rfl, fun t sp => ?_⟩
  cases sp <;> rfl

/-- Claim C4 counterexample.  A success-status response whose JSON body is the
empty object is not of the documented shape (all three fields are missing),
yet `_remote_runner` does not raise: `body.get` silently defaults the fields
(`stdout`/`stderr` to `""`, `return_code` to `1`) and the response is mapped
into a script-level result instead of triggering local fallback. -/
theorem c4_counterexample :
    wellShapedRemote ⟨true, some (.obj [])⟩ = false ∧
    remoteRunnerM ⟨true, some (.obj [])⟩ = some (none, "", .str "", 1) :=
  ⟨rfl, rfl⟩

/-- Claim C4 (amended): a non-success HTTP status, an undecodable or
non-object body, a wrongly-typed `stdout`, or an unconvertible `return_code`
each make `_remote_runner` raise (backend unavailable); but missing fields
are silently defaulted and mapped into a script-level result. -/
theorem c4_unavailable_amended :
    (∀ b, remoteRunnerM ⟨false, b⟩ = none) ∧
    remoteRunnerM ⟨true, none⟩ = none ∧
    remoteRunnerM ⟨true, some (.arr [])⟩ = none ∧
    remoteRunnerM ⟨true, some (.obj [("stdout", .int 3)])⟩ = none ∧
    remoteRunnerM ⟨true, some (.obj [("return_code", .null)])⟩ = none ∧
    remoteRunnerM ⟨true, some (.obj [])⟩ = some (none, "", .str "", 1) :=
  ⟨fun b => rfl, rfl, rfl, rfl, rfl, rfl⟩

/-- Claim C5 counterexample.  `def main(:` fails to parse, and validation
rejects it — but with the missing-entry-point message, not a syntax-invalid
issue: `has_main_function` returns `False` on a parse failure and
`validate_script` returns that message before the scanner (which owns the
syntax-invalid issue) is consulted. -/
theorem c5_counterexample :
    validateScript scriptBroken = (false, some missingMainMsg) ∧
    containsSub missingMainMsg syntaxInvalidMsg = false :=
  ⟨rfl, by decide⟩

/-- Claim C5 (amended): for every non-empty, size-bounded script that fails
to parse, `validate_script` rejects with the missing-entry-point message
(never a syntax-invalid one); the scanner `_find_disallowed_usage`, had it
been called, would indeed return the single syntax-invalid issue and stop. -/
theorem c5_unparseable_rejected_as_missing_main (s : Script)
    (htree : s.tree? = none) (hne : pyLen (pyStrip s.text) ≠ 0)
    (hsz : pyLen s.text ≤ MAX_SCRIPT_SIZE) :
    validateScript s = (false, some missingMainMsg) ∧
    findDisallowedUsage s.tree? = [syntaxInvalidMsg] := by
  constructor
  · have hm : hasMainFunction s = false := by
      simp only [hasMainFunction]
      rw [htree]
    simp only [validateScript]
    rw [if_neg hne, if_neg (by omega), hm]
    rfl
  · rw [htree]
    rfl

/-- Claim C5 witness: the amended theorem applied to `def main(:`. -/
theorem c5_witness :
    validateScript scriptBroken = (false, some missingMainMsg) ∧
    findDisallowedUsage scriptBroken.tree? = [syntaxInvalidMsg] :=
  c5_unparseable_rejected_as_missing_main scriptBroken rfl (by decide) (by decide)

/-- Claim C7: for every raw stdout, the extraction loop yields the suffix
(after the marker) of the last marker-prefixed line, and the collection loop
yields exactly the non-marker lines, in their original order (both expressed
as the corresponding filter of the split lines). -/
theorem c7_normalization_shape (stdout : String) :
    extractPayload (splitLines stdout) =
      ((splitLines stdout).filter (fun l => pyStartswith l RESULT_MARKER)).getLast?.map
        (fun l => pyDrop l (pyLen RESULT_MARKER)) ∧
    collectPrinted (splitLines stdout) =
      (splitLines stdout).filter (fun l => !pyStartswith l RESULT_MARKER) :=
  ⟨extractPayload_eq_getLast _, collectPrinted_eq_filter _⟩

/-- Claim C10: a call `obj.attr(...)` on a denylisted pair contributes two
distinct issues — the call node yields the disallowed-call text and its child
attribute node, also walked, yields the attribute-reference text; the two
texts differ, so the text-based deduplication keeps both. -/
theorem c10_attr_call_double_flag (s : Script) (body : StmtList)
    (o a : String) (args : ExprList)
    (htree : s.tree? = some body)
    (hmem : PyNode.expr (.call (.attrNode (.name o) a) args) ∈
      walk (StmtList.toNodes body))
    (hden : (o, a) ∈ DISALLOWED_ATTRS) :
    callAttrMsg o a ∈ findDisallowedUsage s.tree? ∧
    attrRefMsg o a ∈ findDisallowedUsage s.tree? ∧
    callAttrMsg o a ≠ attrRefMsg o a := by
  rw [htree]
  have hchild : PyNode.expr (.attrNode (.name o) a) ∈ walk (StmtList.toNodes body) :=
    children_mem_walk _ _ hmem _ (by simp [PyNode.children])
  refine ⟨?_, ?_, callAttrMsg_ne_attrRefMsg o a⟩
  · simp only [findDisallowedUsage]
    rw [mem_dedupAux]
    refine ⟨List.mem_append_right _ ?_, by simp⟩
    rw [List.mem_flatMap]
    exact ⟨_, hmem, by simp [nodeIssues, hden]⟩
  · simp only [findDisallowedUsage]
    rw [mem_dedupAux]
    refine ⟨List.mem_append_right _ ?_, by simp⟩
    rw [List.mem_flatMap]
    exact ⟨_, hchild, by simp [nodeIssues, hden]⟩

/-- Claim C10 witness: the theorem applied to
`def main():\n    os.system("x")`. -/
theorem c10_witness :
    callAttrMsg "os" "system" ∈ findDisallowedUsage scriptOsSystem.tree? ∧
    attrRefMsg "os" "system" ∈ findDisallowedUsage scriptOsSystem.tree? ∧
    callAttrMsg "os" "system" ≠ attrRefMsg "os" "system" :=
  c10_attr_call_double_flag scriptOsSystem
    (.cons
      (.functionDef "main"
        (.cons (.exprStmt (.call (.attrNode (.name "os") "system") .nil)) .nil))
      .nil)
    "os" "system" .nil rfl
    (List.Mem.tail _ (List.Mem.tail _ (List.Mem.head _)))
    (by simp [DISALLOWED_ATTRS])


/-- Claim C2 counterexample.  A script that prints one line beginning with
the marker substring and whose `main` then returns `5` yields the legitimate
`5` as result (last marker line wins), but the printed line does NOT appear
in the stdout field — every marker-prefixed line is excluded from it — so the
printed stdout is empty, refuting "the earlier printed line appears verbatim
in the stdout field". -/
theorem c2_counterexample :
    (runPipeline encSimple decSimple 5 scriptPrintsMarker
      (.returns [RESULT_MARKER ++ "zzz"] (.int 5))).resp =
      some ⟨.int 5, "", none⟩ ∧
    containsSub "" (RESULT_MARKER ++ "zzz") = false :=
  ⟨rfl, by decide⟩

/-- Claim C2 (amended): for an accepted script that prints a line `L` and
whose `main` then returns `v`, the result is the legitimately returned `v`
(the harness marker line is printed last, so it wins the last-marker
tie-break); `L` appears verbatim in the stdout field exactly when it does not
begin with the marker — a marker-prefixed print is excluded from stdout. -/
theorem c2_marker_isolation (enc : PyJson → String)
    (dec : String → Except String PyJson) (t : Nat) (s : Script)
    (L : String) (v : PyJson)
    (hv : validateScript s = (true, none))
    (hdec : dec (enc v) = .ok v)
    (hL : '\n' ∉ L.toList) (henc : '\n' ∉ (enc v).toList) :
    (runPipeline enc dec t s (.returns [L] v)).resp =
      some ⟨v, (if pyStartswith L RESULT_MARKER then "" else L), none⟩ := by
  have h0 := runPipeline_returns enc dec t s [L] v hv hdec
    (fun p hp => by rw [List.mem_singleton] at hp; subst hp; exact hL) henc
  rw [h0]
  by_cases hLM : pyStartswith L RESULT_MARKER
  · have h1 : [L].filter (fun l => !pyStartswith l RESULT_MARKER) = [] := by
      simp [hLM]
    rw [h1, if_pos hLM]
    rfl
  · have h1 : [L].filter (fun l => !pyStartswith l RESULT_MARKER) = [L] := by
      simp [hLM]
    rw [h1, if_neg hLM]
    rfl

/-- Claim C2 witness: the amended theorem applied to a printed line that
contains the marker substring in its interior. -/
theorem c2_witness :
    (runPipeline encSimple decSimple 5 scriptPrintsHello
      (.returns ["hello " ++ RESULT_MARKER] (.int 5))).resp =
      some ⟨.int 5,
        (if pyStartswith ("hello " ++ RESULT_MARKER) RESULT_MARKER then ""
         else "hello " ++ RESULT_MARKER), none⟩ :=
  c2_marker_isolation encSimple decSimple 5 scriptPrintsHello
    ("hello " ++ RESULT_MARKER) (.int 5) rfl rfl (by decide) (by decide)

/-- Claim C6: for every accepted script, at most one remote and at most one
local attempt are made; the local attempt happens exactly when the remote
attempt raised; and on fallback with a completed local run, the raw stderr
passed to normalisation is the `[runner-unavailable] <reason>` note prepended
to the local stderr (the whole stderr when the local stderr was empty). -/
theorem c6_fallback_policy (dec : String → Except String PyJson) (t : Nat)
    (s : Script) (remote : RemoteOutcome) (spawn : LocalSpawn)
    (hv : validateScript s = (true, none)) :
    (executeScript dec t s remote spawn).remoteAttempts ≤ 1 ∧
    (executeScript dec t s remote spawn).localAttempts ≤ 1 ∧
    ((executeScript dec t s remote spawn).localAttempts = 1 ↔
      ∃ m, remote = RemoteOutcome.raises m) ∧
    (∀ m o e c, remote = RemoteOutcome.raises m →
      spawn = LocalSpawn.completed o e c →
      (gatherRaw t remote spawn).1 =
        some (extractPayload (splitLines o), o,
          (if e = "" then "[runner-unavailable] " ++ m
           else "[runner-unavailable] " ++ m ++ "\n" ++ e), c)) := by
  rw [executeScript_accepted dec t s remote spawn hv]
  cases remote with
  | returns o e c =>
      refine ⟨by simp [gatherRaw], by simp [gatherRaw], ?_, ?_⟩
      · constructor
        · intro h
          simp [gatherRaw] at h
        · rintro ⟨m, hm⟩
          exact RemoteOutcome.noConfusion hm
      · intro m o2 e2 c2 hr
        exact RemoteOutcome.noConfusion hr
  | raises m =>
      cases spawn with
      | completed o e c =>
          refine ⟨by simp [gatherRaw, localRunner], by simp [gatherRaw, localRunner],
            ⟨fun _ => ⟨m, rfl⟩, fun _ => by simp [gatherRaw, localRunner]⟩, ?_⟩
          intro m2 o2 e2 c2 hr hsp
          cases hr
          cases hsp
          simp [gatherRaw, localRunner]
      | timedOut =>
          refine ⟨by simp [gatherRaw, localRunner], by simp [gatherRaw, localRunner],
            ⟨fun _ => ⟨m, rfl⟩, fun _ => by simp [gatherRaw, localRunner]⟩, ?_⟩
          intro m2 o2 e2 c2 _ hsp
          exact LocalSpawn.noConfusion hsp
      | failed d =>
          refine ⟨by simp [gatherRaw, localRunner], by simp [gatherRaw, localRunner],
            ⟨fun _ => ⟨m, rfl⟩, fun _ => by simp [gatherRaw, localRunner]⟩, ?_⟩
          intro m2 o2 e2 c2 _ hsp
          exact LocalSpawn.noConfusion hsp

/-- Claim C6 witness: the theorem applied to an accepted script with an
unreachable remote backend and a completed local run. -/
theorem c6_witness :
    (executeScript decSimple 5 scriptMain (.raises "down")
      (.completed "out\n" "" 0)).localAttempts = 1 :=
  ((c6_fallback_policy decSimple 5 scriptMain (.raises "down")
      (.completed "out\n" "" 0) rfl).2.2.1).mpr ⟨"down", rfl⟩

/-- Claim C8 counterexample.  A run in which `main` prints a forged marker
line carrying `null` and then raises: the script did not legitimately return
a JSON null (it crashed, with a traceback on stderr and exit status 1), yet
the response has `result = null` and `error = null` — both fields are null,
refuting "both are null only when the script\x27s main() legitimately returns
a JSON null". -/
theorem c8_counterexample :
    (runPipeline encSimple decSimple 5 scriptForgedNull
      (.raises [RESULT_MARKER ++ "null"] "Traceback: Exception")).resp =
      some ⟨.null, "", none⟩ :=
  rfl

/-- Claim C8 (amended): in every execute-script response, at most one of
`result` and `error` is non-null (whenever `error` is set, `result` is the
explicit null); and when `main` legitimately returns a JSON null, both are
null — but the converse fails, as the counterexample shows. -/
theorem c8_result_error_exclusive :
    (∀ (dec : String → Except String PyJson) (t : Nat) (s : Script)
        (remote : RemoteOutcome) (spawn : LocalSpawn) (r : Response),
        (executeScript dec t s remote spawn).resp = some r →
        r.error ≠ none → r.result = PyJson.null) ∧
    (∀ (enc : PyJson → String) (dec : String → Except String PyJson)
        (t : Nat) (s : Script) (prints : List String),
        validateScript s = (true, none) →
        dec (enc PyJson.null) = .ok PyJson.null →
        '\n' ∉ (enc PyJson.null).toList →
        (∀ p ∈ prints, '\n' ∉ p.toList) →
        ∃ out, (runPipeline enc dec t s (.returns prints PyJson.null)).resp =
          some ⟨PyJson.null, out, none⟩) := by
  constructor
  · intro dec t s remote spawn r hr herr
    rcases hval : validateScript s with ⟨ok, err⟩
    cases ok
    · simp only [executeScript, hval] at hr
      obtain rfl := Option.some.inj hr
      rfl
    · simp only [executeScript, hval] at hr
      rcases hg : gatherRaw t remote spawn with ⟨p?, ra, la⟩
      rw [hg] at hr
      cases p? with
      | none => exact absurd hr (by simp)
      | some tup =>
          obtain ⟨p, o, e, c⟩ := tup
          obtain rfl := Option.some.inj hr
          exact finishRun_result_null_of_error dec t p o e c herr
  · intro enc dec t s prints hv hdec henc hp
    exact ⟨_, runPipeline_returns enc dec t s prints .null hv hdec hp henc⟩

/-- Claim C8 witness: both parts of the amended theorem at concrete inputs —
a run whose error is the stripped stderr has the explicit-null result, and a
legitimate null return yields both fields null. -/
theorem c8_witness :
    (⟨PyJson.null, "", some "err"⟩ : Response).result = PyJson.null ∧
    ∃ out, (runPipeline encSimple decSimple 5 scriptPrintsHiNull
      (.returns ["hi"] PyJson.null)).resp = some ⟨PyJson.null, out, none⟩ :=
  ⟨c8_result_error_exclusive.1 decSimple 5 scriptMain (.returns "" "err" 1)
      (.failed "") ⟨PyJson.null, "", some "err"⟩ rfl (by simp),
   c8_result_error_exclusive.2 encSimple decSimple 5 scriptPrintsHiNull ["hi"] rfl rfl
      (by decide) (by decide)⟩

/-- Claim C9: for every value `v` the payload encoder round-trips (and whose
encoding is newline-free, as JSON text is), the full pipeline on an accepted
script whose `main` returns `v` without printing yields exactly
`{result: v, stdout: "", error: null}`. -/
theorem c9_round_trip (enc : PyJson → String)
    (dec : String → Except String PyJson) (t : Nat) (s : Script) (v : PyJson)
    (hv : validateScript s = (true, none)) (hdec : dec (enc v) = .ok v)
    (henc : '\n' ∉ (enc v).toList) :
    (runPipeline enc dec t s (.returns [] v)).resp = some ⟨v, "", none⟩ :=
  runPipeline_returns enc dec t s [] v hv hdec (by simp) henc

/-- Claim C9 witness: the theorem applied to `def main(): return 42` with a
concrete encoder/decoder pair standing in for json.dumps / json.loads. -/
theorem c9_witness :
    (runPipeline encSimple decSimple 5 scriptMain (.returns [] (.int 42))).resp =
      some ⟨.int 42, "", none⟩ :=
  c9_round_trip encSimple decSimple 5 scriptMain (.int 42) rfl rfl (by decide)

end StackSync
